import Mathlib

set_option maxHeartbeats 1000000

namespace Tfs

/-- A dynamically-typed JSON value as Go decodes it into `interface\x7b\x7d`
(with `dec.UseNumber()`, so numbers keep their textual form).  Go `nil`
represents both JSON `null` and an absent map key, so `vnull` plays both
roles.  Go `map[string]interface\x7b\x7d` is modelled as an association
list; Go maps have unique keys and the source always sorts keys before
iterating, so iteration order never matters. -/
inductive GoVal where
  | vnull
  | vstr (s : String)
  | vnum (s : String)
  | vbool (b : Bool)
  | vseq (items : List GoVal)
  | vmap (entries : List (String × GoVal))

/-- `change` object of one resource change (ui.Change / main.Change).
A `nil` map in Go is modelled as `[]`: every use in the source either
guards with a nil check or ranges over it, and both give the empty-map
behaviour. -/
structure Change where
  actions : List String
  before : List (String × GoVal)
  after : List (String × GoVal)
  afterUnknown : List (String × GoVal)

/-- ui.ResourceChange / main.ResourceChange. -/
structure ResourceChange where
  address : String
  type : String
  name : String
  change : Change

/-- `strings.Repeat(" ", n)`. -/
def spaces (n : Nat) : String := String.mk (List.replicate n ' ')

/-- One character of Go `fmt %q` escaping, for printable ASCII and the
common control characters (the only characters the plan data exercises). -/
def goEscapeChar (c : Char) : String :=
  if c = '\\' then "\\\\"
  else if c = '"' then "\\\""
  else if c = '\n' then "\\n"
  else if c = '\t' then "\\t"
  else if c = '\r' then "\\r"
  else String.mk [c]

/-- Go `fmt.Sprintf("%q", s)`. -/
def goQuote (s : String) : String :=
  "\"" ++ String.join (s.toList.map goEscapeChar) ++ "\""

/-- Key order used by `sort.Strings` on formatted map entries: compare by
key.  Go compares strings byte-wise; UTF-8 byte order coincides with the
code-point order of Lean's `String` ≤. -/
def entryLe (a b : String × String) : Prop := a.1 ≤ b.1

instance : DecidableRel entryLe := fun a b => inferInstanceAs (Decidable (a.1 ≤ b.1))

instance : IsTotal (String × String) entryLe := ⟨fun a b => le_total a.1 b.1⟩

instance : IsTrans (String × String) entryLe := ⟨fun _ _ _ h h2 => le_trans h h2⟩

mutual

/-- `formatValue` (ui.formatValue, main.go formatValue):  `step` is the
indentation step, a literal 2 in internal/ui and 4 in main.go.  The Go
code collects the map's keys, sorts them and looks each one up; with the
unique keys of a Go map that is the same as formatting the entries and
sorting the results by key, which is what `formatEntries` plus
`insertionSort` does. -/
def formatValue (step : Nat) : GoVal → Nat → String
  | .vnull, _ => "null"
  | .vmap entries, indent =>
      let sorted := List.insertionSort entryLe (formatEntries step entries (indent + step))
      "\x7b\n" ++
        String.join (sorted.map (fun p => spaces (indent + step) ++ p.1 ++ " = " ++ p.2 ++ "\n")) ++
        spaces indent ++ "\x7d"
  | .vseq items, indent =>
      if items.isEmpty then "[]"
      else
        "[\n" ++
          String.join ((formatItems step items (indent + step)).map
            (fun t => spaces (indent + step) ++ t ++ ",\n")) ++
          spaces indent ++ "]"
  | .vstr s, _ => goQuote s
  | .vnum s, _ => s
  | .vbool b, _ => if b then "true" else "false"

def formatEntries (step : Nat) : List (String × GoVal) → Nat → List (String × String)
  | [], _ => []
  | (k, v) :: rest, indent => (k, formatValue step v indent) :: formatEntries step rest indent

def formatItems (step : Nat) : List GoVal → Nat → List String
  | [], _ => []
  | v :: rest, indent => formatValue step v indent :: formatItems step rest indent

end

/-- Replace test of both classifiers and both renderers:
`len(actions) > 1 && actions[0] == "delete" && actions[1] == "create"`. -/
def isReplaceActions : List String → Bool
  | a0 :: a1 :: _ => a0 == "delete" && a1 == "create"
  | _ => false

/-- The `tabIndex` assignment inside ui.InitialModel and main.initialModel,
for a change whose action slice starts with `a0` followed by `rest`. -/
def tabIndex (a0 : String) (rest : List String) : Nat :=
  if isReplaceActions (a0 :: rest) then 2
  else if a0 = "create" then 0
  else if a0 = "delete" then 1
  else if a0 = "update" then 3
  else 4

/-- Category of a change's action slice.  `none` models the Go runtime
panic: both ui.InitialModel and main.initialModel read
`rc.Change.Actions[0]` before any emptiness check, so an empty slice is an
index-out-of-range panic, not a skip. -/
def actionCategory : List String → Option Nat
  | [] => none
  | a0 :: rest => some (tabIndex a0 rest)

/-- The `lists map[int][]ResourceChange` built by the classifiers, with its
five reachable keys made explicit. -/
structure Buckets where
  create : List ResourceChange
  destroy : List ResourceChange
  replace : List ResourceChange
  update : List ResourceChange
  other : List ResourceChange

def Buckets.empty : Buckets := ⟨[], [], [], [], []⟩

/-- `lists[i]` — reading a missing key of the Go map gives the nil slice. -/
def Buckets.get (b : Buckets) : Nat → List ResourceChange
  | 0 => b.create
  | 1 => b.destroy
  | 2 => b.replace
  | 3 => b.update
  | 4 => b.other
  | _ => []

/-- `lists[tabIndex] = append(lists[tabIndex], rc)`.  Only indices 0..4 are
reachable from `tabIndex`. -/
def Buckets.push (b : Buckets) (i : Nat) (rc : ResourceChange) : Buckets :=
  match i with
  | 0 => { b with create := b.create ++ [rc] }
  | 1 => { b with destroy := b.destroy ++ [rc] }
  | 2 => { b with replace := b.replace ++ [rc] }
  | 3 => { b with update := b.update ++ [rc] }
  | 4 => { b with other := b.other ++ [rc] }
  | _ => b

/-- The partition loop over `plan.ResourceChanges` shared verbatim by
ui.InitialModel and main.initialModel, threaded through an accumulator. -/
def classifyFrom (b : Buckets) : List ResourceChange → Option Buckets
  | [] => some b
  | rc :: rest =>
    match actionCategory rc.change.actions with
    | none => none
    | some i => classifyFrom (b.push i rc) rest

/-- The plan classifier of ui.InitialModel / main.initialModel.  `none`
models the index-out-of-range panic on a change with no actions. -/
def classify (changes : List ResourceChange) : Option Buckets :=
  classifyFrom Buckets.empty changes

/-- A lipgloss style as the source uses it: either no styling, `Bold(true)`,
or a foreground colour given by its hex string. -/
inductive LStyle where
  | plain
  | bold
  | fg (color : String)
deriving DecidableEq

/-- One logical output line of the renderer: the style applied by the single
`Render` call and the raw text handed to it (the trailing newline the Go
code appends outside `Render` is implicit). -/
structure SLine where
  style : LStyle
  text : String

def addColor : String := "#00AF00"

def delColor : String := "#D70000"

def GoVal.isNull : GoVal → Bool
  | .vnull => true
  | _ => false

/-- `if b, ok := unknown.(bool); ok && b` — the known-after-apply test. -/
def isTrueVal : GoVal → Bool
  | .vbool true => true
  | _ => false

/-- Reading `m[k]` after `if v, ok := m[k]; ok` — a missing key stays the
nil interface, i.e. `vnull`. -/
def lookupD (l : List (String × GoVal)) (k : String) : GoVal :=
  (l.lookup k).getD .vnull

/-- `sort.Strings` — Go's byte-wise string order equals code-point order. -/
def sortStrings (l : List String) : List String :=
  List.insertionSort (· ≤ ·) l

/-- The sorted union-of-keys set built in the nested-mapping branch of
stringifyDiff. -/
def unionKeys (mB mA : List (String × GoVal)) : List String :=
  sortStrings ((mB.map Prod.fst ++ mA.map Prod.fst).dedup)

theorem sizeOf_lookupD_le (l : List (String × GoVal)) (k : String) :
    sizeOf (lookupD l k) ≤ sizeOf l := by
  induction l with
  | nil => simp [lookupD, List.lookup]
  | cons hd tl ih =>
    obtain ⟨a, b⟩ := hd
    by_cases h : (k == a) = true
    · simp only [lookupD, List.lookup, h, Option.getD_some]
      simp only [List.cons.sizeOf_spec, Prod.mk.sizeOf_spec]
      omega
    · simp only [lookupD, List.lookup, Bool.not_eq_true] at *
      rw [h]
      simp only [List.cons.sizeOf_spec, Prod.mk.sizeOf_spec]
      have := ih
      simp only [lookupD] at this
      omega

mutual

/-- stringifyDiff (the recursive closure in ui.renderDiff and
main.renderDiff).  `step` is the indentation step of the enclosing
`formatValue` (2 in internal/ui, 4 in main.go); `modStyle` is the style used
for modification lines — the explicit parameter of the internal/ui variant,
the captured yellow style in main.go. -/
def stringifyDiff (step : Nat) (key : String) (vB vA unknown : GoVal)
    (indent : Nat) (modStyle : LStyle) : List SLine :=
  let isUnknown := isTrueVal unknown
  if vB.isNull && (!vA.isNull || isUnknown) then
    [⟨LStyle.fg addColor, spaces indent ++ "+ " ++ key ++ " = " ++
        (if isUnknown then "(known after apply)" else formatValue step vA indent)⟩]
  else if !vB.isNull && vA.isNull && !isUnknown then
    [⟨LStyle.fg delColor, spaces indent ++ "- " ++ key ++ " = " ++ formatValue step vB indent⟩]
  else
    match vB, vA with
    | .vmap mB, .vmap mA =>
        ⟨modStyle, spaces indent ++ "~ " ++ key ++ " = \x7b"⟩ ::
          (diffKeys step (unionKeys mB mA) mB mA (indent + 4) modStyle ++
            [⟨modStyle, spaces indent ++ "\x7d"⟩])
    | vB, vA =>
        let sB := formatValue step vB indent
        let sA := if isUnknown then "(known after apply)" else formatValue step vA indent
        if sB != sA then
          [⟨modStyle, spaces indent ++ "~ " ++ key ++ " = " ++ sB ++ " -> " ++ sA⟩]
        else []
termination_by (sizeOf vB + sizeOf vA, 0)
decreasing_by
  apply Prod.Lex.left
  simp only [GoVal.vmap.sizeOf_spec]
  omega

/-- The per-key loop inside the nested-mapping branch: note the unknown
argument of every recursive call is the literal nil. -/
def diffKeys (step : Nat) (keys : List String) (mB mA : List (String × GoVal))
    (indent : Nat) (modStyle : LStyle) : List SLine :=
  match keys with
  | [] => []
  | k :: rest =>
      stringifyDiff step k (lookupD mB k) (lookupD mA k) .vnull indent modStyle ++
        diffKeys step rest mB mA indent modStyle
termination_by (1 + sizeOf mB + sizeOf mA, keys.length)
decreasing_by
  · apply Prod.Lex.left
    exact Nat.lt_of_le_of_lt
      (Nat.add_le_add (sizeOf_lookupD_le _ _) (sizeOf_lookupD_le _ _)) (by omega)
  · apply Prod.Lex.right
    simp

end

def getSymbol (action : String) : String :=
  if action = "create" then "+"
  else if action = "delete" then "-"
  else if action = "update" then "~"
  else if action = "replace" then "-/+"
  else ""

/-- internal/ui modStyle (update lines, purple). -/
def uiModColor : String := "#AE00FF"

/-- internal/ui repStyle (replace, orange). -/
def uiRepColor : String := "#FFAF00"

/-- main.go modStyle (update lines, yellow). -/
def mainModColor : String := "#FFAF00"

/-- main.go repStyle (replace, purple). -/
def mainRepColor : String := "#AE00FF"

/-- Header line of both renderDiff variants.  The source first formats
`"# %s.%s will be %sed"` (note: this appends a literal "ed" to the action
token, so action "create" yields "will be createed") and then overwrites it
for update and replace; when `isReplace` holds, `action` is "replace", so
the update branch and the default sprintf are mutually exclusive with it. -/
def resourceHeader (ty nm action : String) (isReplace : Bool) : String :=
  if action = "update" then "# " ++ ty ++ "." ++ nm ++ " will be updated in-place"
  else if isReplace then "# " ++ ty ++ "." ++ nm ++ " must be replaced"
  else "# " ++ ty ++ "." ++ nm ++ " will be " ++ action ++ "ed"

/-- Top-level attribute keys of a resource: union of before/after/unknown
keys, `"id"` removed, sorted. -/
def resourceKeys (rc : ResourceChange) : List String :=
  sortStrings (((rc.change.before.map Prod.fst ++ rc.change.after.map Prod.fst ++
    rc.change.afterUnknown.map Prod.fst).dedup).filter (fun k => k != "id"))

/-- ui.renderDiff (internal/ui): step 2, attribute indent 2, closing line
`"\x7d"`, modification colour purple, replace colour orange, and the
modification style of attribute lines follows the resource's own action
(`parentStyle`).  `none` models the panic of `rc.Change.Actions[0]` on an
empty action slice. -/
def renderDiff (rc : ResourceChange) : Option (List SLine) :=
  match rc.change.actions with
  | [] => none
  | a0 :: rest =>
    let isReplace := isReplaceActions (a0 :: rest)
    let action := if isReplace then "replace" else a0
    let headerLine := resourceHeader rc.type rc.name action isReplace
    let resourceLine := "  " ++ getSymbol action ++ " resource " ++ goQuote rc.type ++ " " ++
      goQuote rc.name ++ " \x7b"
    let parentStyle : LStyle :=
      if action = "create" then .fg addColor
      else if action = "delete" then .fg delColor
      else if action = "update" then .fg uiModColor
      else if isReplace then .fg uiRepColor
      else .plain
    some (⟨.bold, headerLine⟩ :: ⟨parentStyle, resourceLine⟩ ::
      (((resourceKeys rc).map (fun k => stringifyDiff 2 k (lookupD rc.change.before k)
          (lookupD rc.change.after k) (lookupD rc.change.afterUnknown k) 2 parentStyle)).flatten ++
        [⟨.plain, "\x7d"⟩]))

/-- main.renderDiff (main.go): step 4, attribute indent 6, closing line
`"    \x7d"`, modification colour yellow for every resource (the closure
captures modStyle instead of threading the resource's style), replace
colour purple. -/
def mainRenderDiff (rc : ResourceChange) : Option (List SLine) :=
  match rc.change.actions with
  | [] => none
  | a0 :: rest =>
    let isReplace := isReplaceActions (a0 :: rest)
    let action := if isReplace then "replace" else a0
    let headerLine := resourceHeader rc.type rc.name action isReplace
    let resourceLine := "  " ++ getSymbol action ++ " resource " ++ goQuote rc.type ++ " " ++
      goQuote rc.name ++ " \x7b"
    let openStyle : LStyle :=
      if action = "create" then .fg addColor
      else if action = "delete" then .fg delColor
      else if action = "update" then .fg mainModColor
      else if isReplace then .fg mainRepColor
      else .plain
    some (⟨.bold, headerLine⟩ :: ⟨openStyle, resourceLine⟩ ::
      (((resourceKeys rc).map (fun k => stringifyDiff 4 k (lookupD rc.change.before k)
          (lookupD rc.change.after k) (lookupD rc.change.afterUnknown k) 6
          (.fg mainModColor))).flatten ++
        [⟨.plain, "    \x7d"⟩]))

/-- The fields of the bubbletea model that the claims refer to.  The
viewport's scroll offset and the terminal dimensions are collaborator
state no claim mentions; `viewportContent` models `viewport.SetContent`. -/
structure TuiModel where
  activeTab : Int
  cursor : Int
  viewMode : String
  lists : Buckets
  tabs : List String
  viewportContent : List SLine

/-- `m.lists[m.activeTab]` with the Go `map[int]` read semantics. -/
def Buckets.getI (b : Buckets) (i : Int) : List ResourceChange :=
  if i < 0 then [] else b.get i.toNat

/-- Go slice indexing `l[i]`; `none` is the out-of-range panic. -/
def sliceGet (l : List ResourceChange) (i : Int) : Option ResourceChange :=
  if i < 0 then none else l[i.toNat]?

/-- The key messages both Update functions interpret.  Quit and window-size
messages do not touch the fields modelled here. -/
inductive Msg where
  | keyTab
  | keyShiftTab
  | keyUp
  | keyDown
  | keyEnter
  | keyEsc

/-- ui model.Update (internal/ui): the category-switch cases are NOT
guarded by the view mode — they fire in detail mode too and force
`viewMode = "list"`.  In detail mode, up/down only scroll the viewport
(state outside this embedding).  `none` models the two reachable panics
(cursor out of slice range; renderDiff of an empty action slice). -/
def uiUpdate (m : TuiModel) (msg : Msg) : Option TuiModel :=
  match msg with
  | .keyTab =>
      let t := m.activeTab + 1
      let t2 := if t ≥ (m.tabs.length : Int) then 0 else t
      some { m with activeTab := t2, cursor := 0, viewMode := "list" }
  | .keyShiftTab =>
      let t := m.activeTab - 1
      let t2 := if t < 0 then (m.tabs.length : Int) - 1 else t
      some { m with activeTab := t2, cursor := 0, viewMode := "list" }
  | .keyUp =>
      if m.viewMode = "list" then
        if m.cursor > 0 then some { m with cursor := m.cursor - 1 } else some m
      else some m
  | .keyDown =>
      if m.viewMode = "list" then
        if m.cursor < ((m.lists.getI m.activeTab).length : Int) - 1 then
          some { m with cursor := m.cursor + 1 }
        else some m
      else some m
  | .keyEnter =>
      if m.viewMode = "list" ∧ 0 < (m.lists.getI m.activeTab).length then
        match sliceGet (m.lists.getI m.activeTab) m.cursor with
        | none => none
        | some sel =>
          match renderDiff sel with
          | none => none
          | some content => some { m with viewMode := "detail", viewportContent := content }
      else some m
  | .keyEsc =>
      if m.viewMode = "detail" then some { m with viewMode := "list" } else some m

/-- main model.Update (main.go): identical to the internal/ui variant
except that the category-switch and cursor cases are guarded by
`viewMode == "list"`, the mode is not reset on a category switch, and
detail content comes from main.go's renderDiff. -/
def mainUpdate (m : TuiModel) (msg : Msg) : Option TuiModel :=
  match msg with
  | .keyTab =>
      if m.viewMode = "list" then
        let t := m.activeTab + 1
        let t2 := if t ≥ (m.tabs.length : Int) then 0 else t
        some { m with activeTab := t2, cursor := 0 }
      else some m
  | .keyShiftTab =>
      if m.viewMode = "list" then
        let t := m.activeTab - 1
        let t2 := if t < 0 then (m.tabs.length : Int) - 1 else t
        some { m with activeTab := t2, cursor := 0 }
      else some m
  | .keyUp =>
      if m.viewMode = "list" ∧ m.cursor > 0 then some { m with cursor := m.cursor - 1 }
      else some m
  | .keyDown =>
      if m.viewMode = "list" ∧ m.cursor < ((m.lists.getI m.activeTab).length : Int) - 1 then
        some { m with cursor := m.cursor + 1 }
      else some m
  | .keyEnter =>
      if m.viewMode = "list" ∧ 0 < (m.lists.getI m.activeTab).length then
        match sliceGet (m.lists.getI m.activeTab) m.cursor with
        | none => none
        | some sel =>
          match mainRenderDiff sel with
          | none => none
          | some content => some { m with viewMode := "detail", viewportContent := content }
      else some m
  | .keyEsc =>
      if m.viewMode = "detail" then some { m with viewMode := "list" } else some m

/-- Tab labels built by both model constructors; `actionCounter[i]` always
equals the length of bucket i, since the loop appends to both together. -/
def tabLabels (b : Buckets) : List String :=
  ["CREATE (+ " ++ toString b.create.length ++ ")",
   "DESTROY (- " ++ toString b.destroy.length ++ ")",
   "REPLACE (-/+ " ++ toString b.replace.length ++ ")",
   "UPDATE (~ " ++ toString b.update.length ++ ")",
   "IMPORT (" ++ toString b.other.length ++ ")"]

/-- ui.InitialModel / main.initialModel after a successful JSON decode:
partition the changes, then start in List mode on the Create tab. -/
def InitialModel (changes : List ResourceChange) : Option TuiModel :=
  (classify changes).map fun lists =>
    { activeTab := 0, cursor := 0, viewMode := "list", lists := lists,
      tabs := tabLabels lists, viewportContent := [] }

/-- getCategory of the generated HTML's script (src/unnamed/part_004):
`const actions = rc.address ? rc.change.actions : rc.Change.Actions`.
When the address is falsy (the empty string) the script reads
`rc.Change.Actions`, but the marshalled plan JSON only has the lowercase
struct-tag keys, so `rc.Change` is `undefined` and the member access throws
a TypeError — modelled as `none`.  Otherwise `act[0]` of an empty array is
`undefined` and fails every comparison, so the empty case lands in
CAT_IMPORT (4). -/
def jsGetCategory (rc : ResourceChange) : Option Nat :=
  if rc.address = "" then none
  else
    some (if isReplaceActions rc.change.actions then 2
      else
        match rc.change.actions with
        | [] => 4
        | a0 :: _ =>
          if a0 = "create" then 0
          else if a0 = "delete" then 1
          else if a0 = "update" then 3
          else 4)

/-- The skip guard of the forEach that fills resourcesByCat in the HTML
surface: missing/empty action arrays and leading "no-op" are dropped. -/
def jsSkip (rc : ResourceChange) : Bool :=
  rc.change.actions.isEmpty || rc.change.actions.head? == some "no-op"

/-- The forEach filling resourcesByCat, resource by resource.  `none`
models the uncaught TypeError from getCategory on an empty address: it
aborts the script before renderTabs/renderList run, so the HTML surface
ends up displaying no buckets at all. -/
def jsBucketsFrom (b : Buckets) : List ResourceChange → Option Buckets
  | [] => some b
  | rc :: rest =>
    if jsSkip rc then jsBucketsFrom b rest
    else
      match jsGetCategory rc with
      | none => none
      | some cat => jsBucketsFrom (b.push cat rc) rest

/-- resourcesByCat of the HTML surface. -/
def jsBuckets (changes : List ResourceChange) : Option Buckets :=
  jsBucketsFrom Buckets.empty changes

/-- Resource `t.n` with actions ["create"] and after x = "a": the scenario
of claim C5. -/
def rcCreateXa : ResourceChange :=
  ⟨"t.n", "t", "n", ⟨["create"], [], [("x", .vstr "a")], []⟩⟩

/-- A change whose action slice is empty. -/
def rcNoActions : ResourceChange := ⟨"a.b", "a", "b", ⟨[], [], [], []⟩⟩

/-- A change whose only action token is "no-op". -/
def rcNoop : ResourceChange := ⟨"t.n", "t", "n", ⟨["no-op"], [], [], []⟩⟩

theorem tabIndex_lt_five (a0 : String) (rest : List String) : tabIndex a0 rest < 5 := by
  unfold tabIndex
  split_ifs <;> norm_num

theorem Buckets.get_empty (i : Nat) : Buckets.empty.get i = [] := by
  rcases i with _|_|_|_|_|i <;> rfl

theorem Buckets.get_push (b : Buckets) (rc : ResourceChange) (i j : Nat) (hi : i < 5) :
    (b.push i rc).get j = if j = i then b.get j ++ [rc] else b.get j := by
  interval_cases i <;> rcases j with _|_|_|_|_|j <;>
    simp [Buckets.push, Buckets.get]

theorem tabIndex_eq_rule (a0 : String) (rest : List String) :
    tabIndex a0 rest =
      if rest.head? = some "create" ∧ a0 = "delete" then 2
      else if a0 = "create" then 0
      else if a0 = "delete" then 1
      else if a0 = "update" then 3
      else 4 := by
  cases rest with
  | nil => simp [tabIndex, isReplaceActions]
  | cons a1 t =>
    simp only [tabIndex, isReplaceActions, List.head?, Option.some.injEq]
    by_cases h1 : a0 = "delete" <;> by_cases h2 : a1 = "create" <;>
      simp [h1, h2]

theorem classifyFrom_eq (changes : List ResourceChange) :
    ∀ b : Buckets, (∀ rc ∈ changes, rc.change.actions ≠ []) →
    ∃ b2, classifyFrom b changes = some b2 ∧
      ∀ i, b2.get i =
        b.get i ++ changes.filter (fun rc => actionCategory rc.change.actions == some i) := by
  induction changes with
  | nil => exact fun b _ => ⟨b, rfl, by simp [classifyFrom]⟩
  | cons rc rest ih =>
    intro b h
    obtain ⟨a0, as, hact⟩ := List.exists_cons_of_ne_nil (h rc (by simp))
    have hcat : actionCategory rc.change.actions = some (tabIndex a0 as) := by
      rw [hact]; rfl
    obtain ⟨b2, hb2, hget⟩ :=
      ih (b.push (tabIndex a0 as) rc) (fun x hx => h x (List.mem_cons_of_mem _ hx))
    refine ⟨b2, ?_, ?_⟩
    · simp only [classifyFrom, hcat]
      exact hb2
    · intro i
      rw [hget i, Buckets.get_push _ _ _ _ (tabIndex_lt_five a0 as)]
      by_cases hi : i = tabIndex a0 as
      · subst hi
        simp [List.filter_cons, hcat]
      · simp [List.filter_cons, hcat, hi, Ne.symm hi]

/-- Claim C1: for every ResourceChange with a non-empty action sequence the
classifier of ui.InitialModel / main.initialModel puts it in exactly one of
the five buckets, the bucket is chosen by the ordered rule (delete,create →
Replace; create → Create; delete → Destroy; update → Update; else Other),
and each bucket keeps the input order (it is the input filtered to that
category). -/
theorem classifier_partition (changes : List ResourceChange)
    (h : ∀ rc ∈ changes, rc.change.actions ≠ []) :
    ∃ b, classify changes = some b ∧
      (∀ i, b.get i = changes.filter (fun rc => actionCategory rc.change.actions == some i)) ∧
      (∀ rc ∈ changes, ∃! i, rc ∈ b.get i) ∧
      (∀ rc ∈ changes, ∀ a0 rest, rc.change.actions = a0 :: rest →
        actionCategory rc.change.actions =
          some (if rest.head? = some "create" ∧ a0 = "delete" then 2
            else if a0 = "create" then 0
            else if a0 = "delete" then 1
            else if a0 = "update" then 3
            else 4)) := by
  obtain ⟨b, hb, hget⟩ := classifyFrom_eq changes Buckets.empty h
  have hget2 : ∀ i, b.get i =
      changes.filter (fun rc => actionCategory rc.change.actions == some i) := by
    intro i
    rw [hget i, Buckets.get_empty]
    rfl
  refine ⟨b, hb, hget2, ?_, ?_⟩
  · intro rc hrc
    obtain ⟨a0, as, hact⟩ := List.exists_cons_of_ne_nil (h rc hrc)
    have hcat : actionCategory rc.change.actions = some (tabIndex a0 as) := by
      rw [hact]; rfl
    refine ⟨tabIndex a0 as, ?_, ?_⟩
    · show rc ∈ b.get (tabIndex a0 as)
      rw [hget2]
      exact List.mem_filter.mpr ⟨hrc, by simp [hcat]⟩
    · intro j hj
      rw [hget2] at hj
      have := (List.mem_filter.mp hj).2
      simp only [hcat, beq_iff_eq, Option.some.injEq] at this
      exact this.symm
  · intro rc _ a0 rest hact
    rw [hact]
    simpa [actionCategory] using tabIndex_eq_rule a0 rest

/-- Witness for C1 at a concrete two-element change-set. -/
theorem classifier_partition_witness :
    ∃ b, classify [rcCreateXa, rcNoop] = some b ∧
      (∀ i, b.get i =
        [rcCreateXa, rcNoop].filter (fun rc => actionCategory rc.change.actions == some i)) ∧
      (∀ rc ∈ [rcCreateXa, rcNoop], ∃! i, rc ∈ b.get i) ∧
      (∀ rc ∈ [rcCreateXa, rcNoop], ∀ a0 rest, rc.change.actions = a0 :: rest →
        actionCategory rc.change.actions =
          some (if rest.head? = some "create" ∧ a0 = "delete" then 2
            else if a0 = "create" then 0
            else if a0 = "delete" then 1
            else if a0 = "update" then 3
            else 4)) :=
  classifier_partition [rcCreateXa, rcNoop] (by decide)

/-- Claim C2 is false of the code: a change-set containing a change with an
empty action sequence is not skipped — both classifiers read `Actions[0]`
first, which panics (modelled by `none`). -/
theorem classifier_crash_on_empty_actions :
    classify [rcNoActions] = none ∧ InitialModel [rcNoActions] = none := ⟨rfl, rfl⟩

def GoVal.isMapV : GoVal → Bool
  | .vmap _ => true
  | _ => false

theorem stringifyDiff_addition (step : Nat) (key : String) (vA unknown : GoVal)
    (indent : Nat) (modStyle : LStyle) (h : vA ≠ .vnull ∨ unknown = .vbool true) :
    stringifyDiff step key .vnull vA unknown indent modStyle =
      [⟨LStyle.fg addColor, spaces indent ++ "+ " ++ key ++ " = " ++
        (if isTrueVal unknown then "(known after apply)" else formatValue step vA indent)⟩] := by
  have hcond : (GoVal.isNull .vnull && (!vA.isNull || isTrueVal unknown)) = true := by
    rcases h with h | h
    · cases vA <;> simp_all [GoVal.isNull]
    · subst h; simp [GoVal.isNull, isTrueVal]
  simp only [stringifyDiff]
  rw [if_pos hcond]

theorem stringifyDiff_map (step : Nat) (key : String) (mB mA : List (String × GoVal))
    (unknown : GoVal) (indent : Nat) (modStyle : LStyle) :
    stringifyDiff step key (.vmap mB) (.vmap mA) unknown indent modStyle =
      ⟨modStyle, spaces indent ++ "~ " ++ key ++ " = \x7b"⟩ ::
        (diffKeys step (unionKeys mB mA) mB mA (indent + 4) modStyle ++
          [⟨modStyle, spaces indent ++ "\x7d"⟩]) := by
  simp only [stringifyDiff]
  simp [GoVal.isNull]

theorem stringifyDiff_scalar (step : Nat) (key : String) (vB vA unknown : GoVal)
    (indent : Nat) (modStyle : LStyle)
    (hB : vB.isNull = false) (hA : vA.isNull = false) (hu : isTrueVal unknown = false)
    (hm : vB.isMapV = false ∨ vA.isMapV = false) :
    stringifyDiff step key vB vA unknown indent modStyle =
      (if formatValue step vB indent != formatValue step vA indent then
        [⟨modStyle, spaces indent ++ "~ " ++ key ++ " = " ++ formatValue step vB indent ++
          " -> " ++ formatValue step vA indent⟩]
       else []) := by
  cases vB <;> cases vA <;> simp_all [stringifyDiff, GoVal.isMapV, GoVal.isNull]

theorem diffKeys_eq_flatten (step : Nat) (ks : List String) (mB mA : List (String × GoVal))
    (indent : Nat) (modStyle : LStyle) :
    diffKeys step ks mB mA indent modStyle =
      (ks.map (fun k =>
        stringifyDiff step k (lookupD mB k) (lookupD mA k) .vnull indent modStyle)).flatten := by
  induction ks with
  | nil => simp [diffKeys]
  | cons k rest ih => simp [diffKeys, ih]

/-- Claim C3: when the before value is absent (Go nil) and the after value
is present or the unknown marker is the boolean true, the diff engine emits
exactly one addition line `+ key = value-or-marker`, coloured green
(`addColor`) whatever modification style the enclosing resource passed in —
for both indent-step variants of the source. -/
theorem diff_addition_green (step : Nat) (key : String) (vA unknown : GoVal)
    (indent : Nat) (modStyle : LStyle) (h : vA ≠ .vnull ∨ unknown = .vbool true) :
    stringifyDiff step key .vnull vA unknown indent modStyle =
      [⟨LStyle.fg addColor, spaces indent ++ "+ " ++ key ++ " = " ++
        (if isTrueVal unknown then "(known after apply)" else formatValue step vA indent)⟩] :=
  stringifyDiff_addition step key vA unknown indent modStyle h

/-- Witness for C3: a present after value and a marked-unknown one, under a
non-Create modification style. -/
theorem diff_addition_green_witness :
    stringifyDiff 2 "x" .vnull (.vstr "a") .vnull 2 (LStyle.fg uiRepColor) =
      [⟨LStyle.fg addColor, "  + x = \"a\""⟩] ∧
    stringifyDiff 2 "x" .vnull .vnull (.vbool true) 2 (LStyle.fg uiModColor) =
      [⟨LStyle.fg addColor, "  + x = (known after apply)"⟩] := by
  constructor
  · have h := diff_addition_green 2 "x" (.vstr "a") .vnull 2 (LStyle.fg uiRepColor)
      (Or.inl (by simp))
    rw [h]
    simp +decide [isTrueVal, formatValue, goQuote, goEscapeChar, spaces, String.join]
  · have h := diff_addition_green 2 "x" .vnull (.vbool true) 2 (LStyle.fg uiModColor)
      (Or.inr rfl)
    rw [h]
    simp +decide [isTrueVal, spaces]

/-- Claim C4: when before and after are both present, not a
mapping-mapping pair, and not marked known-after-apply, the diff engine
emits nothing if the two formatted strings are equal and exactly one
`~ key = before -> after` line if they differ. -/
theorem diff_scalar_update_or_silent (step : Nat) (key : String) (vB vA unknown : GoVal)
    (indent : Nat) (modStyle : LStyle)
    (hB : vB ≠ .vnull) (hA : vA ≠ .vnull)
    (hm : ¬ (vB.isMapV = true ∧ vA.isMapV = true)) (hu : unknown ≠ .vbool true) :
    stringifyDiff step key vB vA unknown indent modStyle =
      (if formatValue step vB indent != formatValue step vA indent then
        [⟨modStyle, spaces indent ++ "~ " ++ key ++ " = " ++ formatValue step vB indent ++
          " -> " ++ formatValue step vA indent⟩]
       else []) := by
  apply stringifyDiff_scalar
  · cases vB <;> simp_all [GoVal.isNull]
  · cases vA <;> simp_all [GoVal.isNull]
  · cases unknown with
    | vbool b => cases b with
      | true => exact absurd rfl hu
      | false => rfl
    | vnull => rfl
    | vstr s => rfl
    | vnum s => rfl
    | vseq l => rfl
    | vmap l => rfl
  · by_cases h1 : vB.isMapV = true
    · right
      by_cases h2 : vA.isMapV = true
      · exact absurd ⟨h1, h2⟩ hm
      · simpa using h2
    · left
      simpa using h1

/-- Witness for C4: identical formatted values emit nothing, different ones
emit one modification line. -/
theorem diff_scalar_update_or_silent_witness :
    stringifyDiff 2 "x" (.vnum "1") (.vnum "1") .vnull 2 (LStyle.fg uiModColor) = [] ∧
    stringifyDiff 2 "x" (.vstr "a") (.vstr "b") .vnull 2 (LStyle.fg uiModColor) =
      [⟨LStyle.fg uiModColor, "  ~ x = \"a\" -> \"b\""⟩] := by
  constructor
  · have h := diff_scalar_update_or_silent 2 "x" (.vnum "1") (.vnum "1") .vnull 2
      (LStyle.fg uiModColor) (by simp) (by simp) (by simp [GoVal.isMapV]) (by simp)
    rw [h]
    simp [formatValue]
  · have h := diff_scalar_update_or_silent 2 "x" (.vstr "a") (.vstr "b") .vnull 2
      (LStyle.fg uiModColor) (by simp) (by simp) (by simp [GoVal.isMapV]) (by simp)
    rw [h]
    simp +decide [formatValue, goQuote, goEscapeChar, spaces, String.join]

/-- Claim C10: inside a nested-mapping diff the known-after-apply marker is
never propagated.  (1) the nested-mapping branch ignores the unknown
argument entirely, so marking a mapping attribute in after_unknown changes
nothing; (2) every recursive child call runs with unknown = nil; (3) a
child key with a present after value therefore renders its formatted value,
never the marker; (4) a child key absent on both sides — e.g. present only
in a nested after_unknown — produces no line at all. -/
theorem nested_unknown_never_propagated (step : Nat) (indent : Nat) (modStyle : LStyle) :
    (∀ key mB mA unknown,
      stringifyDiff step key (.vmap mB) (.vmap mA) unknown indent modStyle =
        stringifyDiff step key (.vmap mB) (.vmap mA) .vnull indent modStyle) ∧
    (∀ ks mB mA,
      diffKeys step ks mB mA indent modStyle =
        (ks.map (fun k =>
          stringifyDiff step k (lookupD mB k) (lookupD mA k) .vnull indent modStyle)).flatten) ∧
    (∀ key vA, vA ≠ .vnull →
      stringifyDiff step key .vnull vA .vnull indent modStyle =
        [⟨LStyle.fg addColor, spaces indent ++ "+ " ++ key ++ " = " ++
          formatValue step vA indent⟩]) ∧
    (∀ key, stringifyDiff step key .vnull .vnull .vnull indent modStyle = []) := by
  refine ⟨?_, ?_, ?_, ?_⟩
  · intro key mB mA unknown
    rw [stringifyDiff_map, stringifyDiff_map]
  · intro ks mB mA
    exact diffKeys_eq_flatten step ks mB mA indent modStyle
  · intro key vA hA
    rw [stringifyDiff_addition step key vA .vnull indent modStyle (Or.inl hA)]
    simp [isTrueVal]
  · intro key
    simp [stringifyDiff, GoVal.isNull, isTrueVal, formatValue]

/-- Witness for C10: a nested mapping whose after_unknown marks the child
true renders identically to the unmarked one, and the child line shows the
formatted value, not the marker. -/
theorem nested_unknown_never_propagated_witness :
    stringifyDiff 2 "m" (.vmap [("x", .vstr "a")]) (.vmap [("x", .vstr "b")])
        (.vmap [("x", .vbool true)]) 2 (LStyle.fg uiModColor) =
      stringifyDiff 2 "m" (.vmap [("x", .vstr "a")]) (.vmap [("x", .vstr "b")])
        .vnull 2 (LStyle.fg uiModColor) ∧
    stringifyDiff 2 "y" .vnull (.vstr "c") .vnull 6 (LStyle.fg uiModColor) =
      [⟨LStyle.fg addColor, "      + y = \"c\""⟩] ∧
    stringifyDiff 2 "z" .vnull .vnull .vnull 6 (LStyle.fg uiModColor) = [] := by
  refine ⟨?_, ?_, ?_⟩
  · exact (nested_unknown_never_propagated 2 2 (LStyle.fg uiModColor)).1 "m"
      [("x", .vstr "a")] [("x", .vstr "b")] (.vmap [("x", .vbool true)])
  · have h := (nested_unknown_never_propagated 2 6 (LStyle.fg uiModColor)).2.2.1 "y"
      (.vstr "c") (by simp)
    rw [h]
    simp +decide [formatValue, goQuote, goEscapeChar, spaces, String.join]
  · exact (nested_unknown_never_propagated 2 6 (LStyle.fg uiModColor)).2.2.2 "z"

theorem formatEntries_eq_map (step : Nat) (l : List (String × GoVal)) (i : Nat) :
    formatEntries step l i = l.map (fun e => (e.1, formatValue step e.2 i)) := by
  induction l with
  | nil => simp [formatEntries]
  | cons e rest ih =>
    obtain ⟨k, v⟩ := e
    simp [formatEntries, ih]

/-- Strict-by-key order used to show two sorted formatted entry lists that
are permutations of each other coincide. -/
def entryLt (a b : String × String) : Prop := a.1 < b.1 ∨ a = b

instance : IsAntisymm (String × String) entryLt :=
  ⟨by
    rintro a b (h1 | h1) (h2 | h2)
    · exact absurd h1 (lt_asymm h2)
    · exact h2.symm
    · exact h1
    · exact h1⟩

theorem sorted_entryLt_of_sorted_nodup (l : List (String × String))
    (hs : List.Sorted entryLe l) (hn : (l.map Prod.fst).Nodup) :
    List.Sorted entryLt l := by
  have hne : List.Pairwise (fun a b : String × String => a.1 ≠ b.1) l :=
    (List.pairwise_map).mp hn
  exact (hs.and hne).imp (fun h => Or.inl (lt_of_le_of_ne h.1 h.2))

/-- Claim C9: the value formatter renders a mapping as a multi-line block —
opening brace, one `key = value` line per entry with the entries in
lexicographic key order, closing brace at the caller's indent — the result
does not depend on the iteration order of the underlying (unique-keyed)
map, and an empty sequence renders as "[]".  Holds for both indent-step
variants. -/
theorem formatValue_map_deterministic (step : Nat) :
    (∀ (l : List (String × GoVal)) (i : Nat), ∃ ps : List (String × String),
      List.Sorted entryLe ps ∧
      ps.Perm (l.map (fun e => (e.1, formatValue step e.2 (i + step)))) ∧
      formatValue step (.vmap l) i =
        "\x7b\n" ++
          String.join (ps.map (fun p => spaces (i + step) ++ p.1 ++ " = " ++ p.2 ++ "\n")) ++
          spaces i ++ "\x7d") ∧
    (∀ (l1 l2 : List (String × GoVal)) (i : Nat), l1.Perm l2 → (l1.map Prod.fst).Nodup →
      formatValue step (.vmap l1) i = formatValue step (.vmap l2) i) ∧
    (∀ i : Nat, formatValue step (.vseq []) i = "[]") := by
  refine ⟨?_, ?_, ?_⟩
  · intro l i
    refine ⟨List.insertionSort entryLe (formatEntries step l (i + step)),
      List.sorted_insertionSort entryLe _, ?_, ?_⟩
    · have hh : List.Perm (formatEntries step l (i + step))
          (l.map (fun e => (e.1, formatValue step e.2 (i + step)))) := by
        rw [formatEntries_eq_map]
      exact (List.perm_insertionSort entryLe _).trans hh
    · simp only [formatValue]
  · intro l1 l2 i hp hn
    have e1 := formatEntries_eq_map step l1 (i + step)
    have e2 := formatEntries_eq_map step l2 (i + step)
    have hkeys1 : (formatEntries step l1 (i + step)).map Prod.fst = l1.map Prod.fst := by
      rw [e1, List.map_map]
      rfl
    have hkeys2 : (formatEntries step l2 (i + step)).map Prod.fst = l2.map Prod.fst := by
      rw [e2, List.map_map]
      rfl
    have hpm : List.Perm (formatEntries step l1 (i + step)) (formatEntries step l2 (i + step)) := by
      rw [e1, e2]
      exact hp.map _
    have hperm12 : List.Perm (List.insertionSort entryLe (formatEntries step l1 (i + step)))
        (List.insertionSort entryLe (formatEntries step l2 (i + step))) :=
      ((List.perm_insertionSort entryLe _).trans hpm).trans
        (List.perm_insertionSort entryLe _).symm
    have hn2x : (l2.map Prod.fst).Nodup := ((hp.map Prod.fst).nodup_iff).mp hn
    have hn1 : ((List.insertionSort entryLe (formatEntries step l1 (i + step))).map
        Prod.fst).Nodup := by
      refine (((List.perm_insertionSort entryLe _).map Prod.fst).nodup_iff).mpr ?_
      rw [hkeys1]
      exact hn
    have hn2 : ((List.insertionSort entryLe (formatEntries step l2 (i + step))).map
        Prod.fst).Nodup := by
      refine (((List.perm_insertionSort entryLe _).map Prod.fst).nodup_iff).mpr ?_
      rw [hkeys2]
      exact hn2x
    have h12 : List.insertionSort entryLe (formatEntries step l1 (i + step)) =
        List.insertionSort entryLe (formatEntries step l2 (i + step)) :=
      List.eq_of_perm_of_sorted hperm12
        (sorted_entryLt_of_sorted_nodup _ (List.sorted_insertionSort entryLe _) hn1)
        (sorted_entryLt_of_sorted_nodup _ (List.sorted_insertionSort entryLe _) hn2)
    simp only [formatValue, h12]
  · intro i
    simp [formatValue]

/-- Witness for C9: two iteration orders of the same two-entry map format
identically, and the empty sequence formats as "[]". -/
theorem formatValue_map_deterministic_witness :
    formatValue 2 (.vmap [("b", .vnum "1"), ("a", .vnum "2")]) 0 =
      formatValue 2 (.vmap [("a", .vnum "2"), ("b", .vnum "1")]) 0 ∧
    formatValue 2 (.vseq []) 7 = "[]" :=
  ⟨(formatValue_map_deterministic 2).2.1 [("b", .vnum "1"), ("a", .vnum "2")]
      [("a", .vnum "2"), ("b", .vnum "1")] 0
      (List.Perm.swap (("a", GoVal.vnum "2") : String × GoVal) ("b", GoVal.vnum "1") [])
      (by simp),
    (formatValue_map_deterministic 2).2.2 7⟩

/-- What ui.renderDiff actually produces for the C5 scenario resource:
note the header text "createed" — `fmt.Sprintf("# %s.%s will be %sed", ...)`
appends "ed" to the action token "create". -/
def rcXaRendered : List SLine :=
  [⟨.bold, "# t.n will be createed"⟩,
   ⟨.fg addColor, "  + resource \"t\" \"n\" \x7b"⟩,
   ⟨.fg addColor, "  + x = \"a\""⟩,
   ⟨.plain, "\x7d"⟩]

theorem renderDiff_rcCreateXa : renderDiff rcCreateXa = some rcXaRendered := by
  simp +decide [renderDiff, rcCreateXa, rcXaRendered, resourceKeys,
    List.dedup_cons_of_not_mem, sortStrings, List.insertionSort, List.orderedInsert,
    resourceHeader, isReplaceActions, getSymbol, lookupD, goQuote, goEscapeChar, spaces,
    String.join, stringifyDiff, GoVal.isNull, isTrueVal, formatValue]

/-- Claim C5 evaluated on the code: for the resource t.n with
actions=["create"], after=\x7b"x":"a"\x7d, both renderers emit the green
resource-opening line, the green attribute line `+ x = "a"`, and the
closing brace that the claim asks for, but the header line is
`# t.n will be createed` (sprintf appends a literal "ed" to the token
"create"), not `# t.n will be created` as the claim, the comment above the
Go sprintf, and the HTML renderer all say. -/
theorem render_create_scenario :
    renderDiff rcCreateXa = some rcXaRendered ∧
    mainRenderDiff rcCreateXa = some
      [⟨.bold, "# t.n will be createed"⟩,
       ⟨.fg addColor, "  + resource \"t\" \"n\" \x7b"⟩,
       ⟨.fg addColor, "      + x = \"a\""⟩,
       ⟨.plain, "    \x7d"⟩] := by
  refine ⟨renderDiff_rcCreateXa, ?_⟩
  simp +decide [mainRenderDiff, rcCreateXa, resourceKeys,
    List.dedup_cons_of_not_mem, sortStrings, List.insertionSort, List.orderedInsert,
    resourceHeader, isReplaceActions, getSymbol, lookupD, goQuote, goEscapeChar, spaces,
    String.join, stringifyDiff, GoVal.isNull, isTrueVal, formatValue]

/-- A create resource whose address is the empty string — falsy in the
HTML script. -/
def rcNoAddr : ResourceChange := ⟨"", "t", "n", ⟨["create"], [], [], []⟩⟩

theorem jsGetCategory_eq_tabIndex (rc : ResourceChange) (ha : rc.address ≠ "")
    (a0 : String) (rest : List String) (hact : rc.change.actions = a0 :: rest) :
    jsGetCategory rc = some (tabIndex a0 rest) := by
  rw [jsGetCategory, if_neg ha, hact]
  rfl

/-- Claim C6 is false at concrete inputs.  A "no-op" resource: the TUI
classifier puts it in bucket 4 (the IMPORT/other tab) while the HTML
surface's forEach skips it, leaving every HTML bucket empty.  An
empty-address resource: the TUI files it under Create while the HTML
script's getCategory reads the undefined `rc.Change` and throws, bucketing
nothing.  In neither case do the two surfaces place the resource in the
same bucket. -/
theorem surfaces_disagree_on_noop :
    classify [rcNoop] = some (Buckets.empty.push 4 rcNoop) ∧
    (Buckets.empty.push 4 rcNoop).get 4 = [rcNoop] ∧
    jsBuckets [rcNoop] = some Buckets.empty ∧
    (∀ i, Buckets.empty.get i = []) ∧
    classify [rcNoAddr] = some (Buckets.empty.push 0 rcNoAddr) ∧
    (Buckets.empty.push 0 rcNoAddr).get 0 = [rcNoAddr] ∧
    jsBuckets [rcNoAddr] = none :=
  ⟨rfl, rfl, rfl, Buckets.get_empty, rfl, rfl, rfl⟩

/-- Claim C6 amended: the two surfaces use the same ordinal rule 0..4
(Create, Destroy, Replace, Update, Other) — on a truthy address and a
non-empty action sequence, getCategory returns exactly the TUI's
`tabIndex` — and on every change-set in which each change has a non-empty
address and a non-empty action sequence not led by "no-op", the two
surfaces build identical buckets.  Resources the HTML surface skips
("no-op"-leading or empty actions) or throws on (empty address) are the
carve-outs the counterexample exhibits. -/
theorem surfaces_agree_modulo_skips :
    (∀ (rc : ResourceChange) (a0 : String) (rest : List String),
      rc.address ≠ "" → rc.change.actions = a0 :: rest →
      jsGetCategory rc = actionCategory rc.change.actions) ∧
    (∀ changes : List ResourceChange,
      (∀ rc ∈ changes, rc.address ≠ "" ∧ rc.change.actions ≠ [] ∧
        rc.change.actions.head? ≠ some "no-op") →
      ∃ b, classify changes = some b ∧ jsBuckets changes = some b) := by
  constructor
  · intro rc a0 rest ha hact
    rw [jsGetCategory_eq_tabIndex rc ha a0 rest hact, hact]
    rfl
  · have key : ∀ (changes : List ResourceChange) (b : Buckets),
        (∀ rc ∈ changes, rc.address ≠ "" ∧ rc.change.actions ≠ [] ∧
          rc.change.actions.head? ≠ some "no-op") →
        ∃ b2, classifyFrom b changes = some b2 ∧ jsBucketsFrom b changes = some b2 := by
      intro changes
      induction changes with
      | nil => intro b _; exact ⟨b, rfl, rfl⟩
      | cons rc rest ih =>
        intro b h
        obtain ⟨haddr, hne, hnoop⟩ := h rc (by simp)
        obtain ⟨a0, as, hact⟩ := List.exists_cons_of_ne_nil hne
        rw [hact] at hnoop
        have ha0 : a0 ≠ "no-op" := by simpa using hnoop
        have hskip : jsSkip rc = false := by
          simp [jsSkip, hact, ha0]
        have hcat : actionCategory rc.change.actions = some (tabIndex a0 as) := by
          rw [hact]
          rfl
        have hjs : jsGetCategory rc = some (tabIndex a0 as) :=
          jsGetCategory_eq_tabIndex rc haddr a0 as hact
        obtain ⟨b2, hcls, hjsb⟩ := ih (b.push (tabIndex a0 as) rc)
          (fun x hx => h x (List.mem_cons_of_mem _ hx))
        refine ⟨b2, ?_, ?_⟩
        · simp only [classifyFrom, hcat]
          exact hcls
        · simp only [jsBucketsFrom, hskip, hjs, Bool.false_eq_true, if_neg,
            not_false_eq_true]
          exact hjsb
    intro changes h
    exact key changes Buckets.empty h

/-- Witness for the amended C6 at a concrete change-set. -/
theorem surfaces_agree_modulo_skips_witness :
    ∃ b, classify [rcCreateXa] = some b ∧ jsBuckets [rcCreateXa] = some b :=
  surfaces_agree_modulo_skips.2 [rcCreateXa] (by decide)

/-- A model sitting in Detail mode on the Create tab. -/
def mDetail0 : TuiModel :=
  { activeTab := 0, cursor := 0, viewMode := "detail", lists := Buckets.empty,
    tabs := tabLabels Buckets.empty, viewportContent := [] }

/-- Claim C7 is false of the internal/ui Update: in Detail mode a
next-category input changes the active category (and forces List mode)
instead of leaving the category unchanged. -/
theorem category_switch_fires_in_detail :
    mDetail0.viewMode = "detail" ∧ mDetail0.activeTab = 0 ∧
    (uiUpdate mDetail0 .keyTab).map (fun m => (m.activeTab, m.viewMode)) =
      some (1, "list") := ⟨rfl, rfl, rfl⟩

/-- Claim C7 amended: in main.go's Update the category switches are guarded
by List mode — a Detail-mode input leaves the state unchanged, and in List
mode they cycle with wraparound and reset the cursor; in internal/ui's
Update the category switches fire in every mode, cycle with wraparound,
reset the cursor to 0 and force List mode. -/
theorem category_switch_transitions (m : TuiModel)
    (htabs : m.tabs.length = 5) (h0 : 0 ≤ m.activeTab) (h5 : m.activeTab < 5) :
    (m.viewMode = "detail" →
      mainUpdate m .keyTab = some m ∧ mainUpdate m .keyShiftTab = some m) ∧
    (m.viewMode = "list" →
      mainUpdate m .keyTab = some { m with activeTab := (m.activeTab + 1) % 5, cursor := 0 } ∧
      mainUpdate m .keyShiftTab =
        some { m with activeTab := (m.activeTab + 4) % 5, cursor := 0 }) ∧
    uiUpdate m .keyTab =
      some { m with activeTab := (m.activeTab + 1) % 5, cursor := 0, viewMode := "list" } ∧
    uiUpdate m .keyShiftTab =
      some { m with activeTab := (m.activeTab + 4) % 5, cursor := 0, viewMode := "list" } := by
  have e1 : (if m.activeTab + 1 ≥ ((5 : Nat) : Int) then (0 : Int) else m.activeTab + 1) =
      (m.activeTab + 1) % 5 := by
    split_ifs with h <;> omega
  have e2 : (if m.activeTab - 1 < 0 then ((5 : Nat) : Int) - 1 else m.activeTab - 1) =
      (m.activeTab + 4) % 5 := by
    split_ifs with h <;> omega
  refine ⟨?_, ?_, ?_, ?_⟩
  · intro hd
    constructor <;> simp [mainUpdate, hd]
  · intro hl
    constructor
    · simp only [mainUpdate, htabs, hl, if_pos]
      rw [e1]
    · simp only [mainUpdate, htabs, hl, if_pos]
      rw [e2]
  · simp only [uiUpdate, htabs]
    rw [e1]
  · simp only [uiUpdate, htabs]
    rw [e2]

/-- Witness for the amended C7 at a concrete model. -/
theorem category_switch_transitions_witness :
    (mDetail0.viewMode = "detail" →
      mainUpdate mDetail0 .keyTab = some mDetail0 ∧
      mainUpdate mDetail0 .keyShiftTab = some mDetail0) ∧
    (mDetail0.viewMode = "list" →
      mainUpdate mDetail0 .keyTab =
        some { mDetail0 with activeTab := (mDetail0.activeTab + 1) % 5, cursor := 0 } ∧
      mainUpdate mDetail0 .keyShiftTab =
        some { mDetail0 with activeTab := (mDetail0.activeTab + 4) % 5, cursor := 0 }) ∧
    uiUpdate mDetail0 .keyTab =
      some { mDetail0 with
        activeTab := (mDetail0.activeTab + 1) % 5, cursor := 0, viewMode := "list" } ∧
    uiUpdate mDetail0 .keyShiftTab =
      some { mDetail0 with
        activeTab := (mDetail0.activeTab + 4) % 5, cursor := 0, viewMode := "list" } :=
  category_switch_transitions mDetail0 (by decide) (by decide) (by decide)

/-- Simple create-only resources used to fill the C8 scenario bucket. -/
def rcA : ResourceChange := ⟨"t.a", "t", "a", ⟨["create"], [], [], []⟩⟩

def rcB : ResourceChange := ⟨"t.b", "t", "b", ⟨["create"], [], [], []⟩⟩

/-- Claim C8: from List mode over a 3-item bucket with the cursor at 2, a
down input leaves the cursor at 2 (clamped at bucket length - 1), up moves
it to 1, enter on the non-empty bucket switches to Detail mode and caches
the rendered block of the item under the cursor, and esc returns to List
mode with the cursor still at 1. -/
theorem navigation_scenario (m : TuiModel) (items : List ResourceChange)
    (hlist : m.viewMode = "list") (hitems : m.lists.getI m.activeTab = items)
    (hlen : items.length = 3) (hcur : m.cursor = 2)
    (item1 : ResourceChange) (hitem : items[1]? = some item1)
    (content : List SLine) (hrender : renderDiff item1 = some content) :
    ∃ m1 m2 m3 m4,
      uiUpdate m .keyDown = some m1 ∧ m1.cursor = 2 ∧ m1.viewMode = "list" ∧
      uiUpdate m1 .keyUp = some m2 ∧ m2.cursor = 1 ∧ m2.viewMode = "list" ∧
      uiUpdate m2 .keyEnter = some m3 ∧ m3.viewMode = "detail" ∧
        m3.viewportContent = content ∧
      uiUpdate m3 .keyEsc = some m4 ∧ m4.viewMode = "list" ∧ m4.cursor = 1 := by
  have s1 : uiUpdate m .keyDown = some m := by
    simp [uiUpdate, hlist, hitems, hlen, hcur]
  have hc1 : m.cursor - 1 = (1 : Int) := by omega
  have s2 : uiUpdate m .keyUp = some { m with cursor := 1 } := by
    simp [uiUpdate, hlist, hcur, hc1]
  have hsel : sliceGet items (1 : Int) = some item1 := by
    simp [sliceGet, hitem]
  have s3 : uiUpdate { m with cursor := (1 : Int) } .keyEnter =
      some { m with cursor := 1, viewMode := "detail", viewportContent := content } := by
    simp [uiUpdate, hlist, hitems, hlen, hsel, hrender]
  have s4 : uiUpdate
      { m with cursor := (1 : Int), viewMode := "detail", viewportContent := content }
      .keyEsc =
      some { m with cursor := 1, viewMode := "list", viewportContent := content } := by
    simp [uiUpdate]
  exact ⟨m, { m with cursor := 1 },
    { m with cursor := 1, viewMode := "detail", viewportContent := content },
    { m with cursor := 1, viewMode := "list", viewportContent := content },
    s1, hcur, hlist, s2, rfl, hlist, s3, rfl, rfl, s4, rfl, rfl⟩

/-- A model in List mode on a 3-item Create bucket with the cursor at 2. -/
def mNav : TuiModel :=
  { activeTab := 0, cursor := 2, viewMode := "list",
    lists := ⟨[rcA, rcCreateXa, rcB], [], [], [], []⟩,
    tabs := tabLabels ⟨[rcA, rcCreateXa, rcB], [], [], [], []⟩, viewportContent := [] }

/-- Witness for C8 at the concrete model `mNav`. -/
theorem navigation_scenario_witness :
    ∃ m1 m2 m3 m4,
      uiUpdate mNav .keyDown = some m1 ∧ m1.cursor = 2 ∧ m1.viewMode = "list" ∧
      uiUpdate m1 .keyUp = some m2 ∧ m2.cursor = 1 ∧ m2.viewMode = "list" ∧
      uiUpdate m2 .keyEnter = some m3 ∧ m3.viewMode = "detail" ∧
        m3.viewportContent = rcXaRendered ∧
      uiUpdate m3 .keyEsc = some m4 ∧ m4.viewMode = "list" ∧ m4.cursor = 1 :=
  navigation_scenario mNav [rcA, rcCreateXa, rcB] rfl rfl rfl rfl
    rcCreateXa rfl rcXaRendered renderDiff_rcCreateXa

end Tfs
